import Mathlib

/-!
Verification of the vericore statement-verifier agent repository.

This file gives a shallow embedding, in Lean 4, of the operations of the
repository that the specification talks about:

* locator normalization and payload download (`pull_agent`,
  src/neurons/__init__.py lines 41-93);
* the validator evaluation loop (`validator`, src/neurons/__init__.py
  lines 251-348), with the external sandbox (`vericore_agent.Container`,
  not part of src/) modelled as an oracle following the specification of
  SandboxRunner;
* the watchdog (src/neurons/__init__.py lines 236-249), over an idealized
  discrete time line (seconds as naturals, exact sleeps);
* signature verification and membership checks
  (src/services/signature_verifier.py), with the substrate crypto
  primitive (`bt.Keypair.verify`) as an oracle;
* the submission relay (src/services/verifier_service.py
  `send_submission`).

Python strings are embedded as `String`, Python numbers as `ℚ` / `ℕ`
(exact arithmetic), JSON-ish dynamic values as the inductive `PyValue`,
and fallible calls as `Option` / `Except`.  External I/O (chain reads,
HTTP fetches, the sandbox) enters as explicit environment records, so
every definition is executable on concrete inputs.
-/

/-! ## Python dynamic values (JSON-ish) -/

/-- Dynamic (JSON-like) Python values, as returned by `response.json()`
and by the sandbox `verify` call. -/
inductive PyValue where
  | null : PyValue
  | bool : Bool → PyValue
  | num : Int → PyValue
  | float : ℚ → PyValue
  | str : String → PyValue
  | list : List PyValue → PyValue
  | dict : List (String × PyValue) → PyValue

/-- First-match association-list lookup; Python dicts have unique keys so
this is faithful for dict indexing / `in` tests. -/
def lookupEntry (k : String) : List (String × PyValue) → Option PyValue
  | [] => none
  | (k', v) :: rest => if k == k' then some v else lookupEntry k rest

/-- Python `k in d` for a dict. -/
def containsKey (k : String) (d : List (String × PyValue)) : Bool :=
  (lookupEntry k d).isSome

/-- Python `==` between a dynamic value and a `bool` (the validator compares
`result["verdict"] == expected_verdict` where `expected_verdict` is a
Python bool; in Python `True == 1 == 1.0`). -/
def pyEqBool (v : PyValue) (e : Bool) : Bool :=
  match v with
  | .bool b => b == e
  | .num n => n == (if e then 1 else 0)
  | .float q => q == (if e then 1 else 0)
  | _ => false

/-! ## Character-list string helpers (Python `str` operations) -/

/-- Python `s.startswith(p)`, on character lists. -/
def leadsWithL : List Char → List Char → Bool
  | [], _ => true
  | _ :: _, [] => false
  | a :: as, b :: bs => a == b && leadsWithL as bs

/-- Python `needle in hay` substring test, on character lists. -/
def containsSeqL (needle : List Char) : List Char → Bool
  | [] => needle.isEmpty
  | c :: rest => leadsWithL needle (c :: rest) || containsSeqL needle rest

/-- Python `s.startswith(p)`. -/
def leadsWith (p s : String) : Bool := leadsWithL p.data s.data

/-- Python `p in s` substring test. -/
def containsSeq (p s : String) : Bool := containsSeqL p.data s.data

/-- Python `s.rstrip('/')`. -/
def rstripSlashL (l : List Char) : List Char :=
  (l.reverse.dropWhile fun c => c == '/').reverse

/-- Python `s.split('/')[-1]`: the characters after the last `'/'`. -/
def lastSegL (l : List Char) : List Char :=
  (l.reverse.takeWhile fun c => !(c == '/')).reverse

/-! ## Locator normalization (src/neurons/__init__.py lines 52-57) -/

/-- The canonical gist API host that the code tests for with
`"api.github.com" not in g`. -/
def apiHost : String := "api.github.com"

/-- The canonical retrieval URL stem `https://api.github.com/gists/`. -/
def gistApiLead : String := "https://api.github.com/gists/"

/-- Locator normalization, from `pull_agent`:

    if g.startswith("http") and "api.github.com" not in g:
        g = f"https://api.github.com/gists/{g.rstrip('/').split('/')[-1]}"
    if not g.startswith("http"):
        g = f"https://api.github.com/gists/{g}"
-/
def normalize_locator (g : String) : String :=
  let g1 := if leadsWith "http" g && !containsSeq apiHost g then
              gistApiLead ++ String.mk (lastSegL (rstripSlashL g.data))
            else g
  if !leadsWith "http" g1 then gistApiLead ++ g1 else g1

/-- A locator is already canonical when it is a URL (starts with `http`)
that contains the canonical API host. -/
def alreadyCanonical (g : String) : Bool :=
  leadsWith "http" g && containsSeq apiHost g

/-! ## Payload download (`pull_agent`, src/neurons/__init__.py lines 41-93) -/

/-- One entry of the gist manifest `data["files"]`: inline `content`
(possibly absent), the `truncated` flag, and the `raw_url` fallback
address. -/
structure FileMeta where
  content : Option String
  truncated : Bool
  raw_url : String

/-- External-I/O environment of one `pull_agent` call: the revealed
commitment (`none` when `get_revealed_commitment` raises or has no
reveal), the manifest fetched from a gist URL (`none` when the fetch or
its JSON parse fails), and the raw-url follow-up fetches (`none` when a
fetch fails). -/
structure PullEnv where
  commitment : Option (ℕ × String)
  manifest : String → Option (List (String × FileMeta))
  rawFetch : String → Option String

/-- Content resolution for one manifest entry:

    content = file_meta.get("content")
    if content is None or file_meta.get("truncated"):
        content = (await fetch raw_url)
-/
def fetchContent (env : PullEnv) (m : FileMeta) : Option String :=
  match m.content with
  | none => env.rawFetch m.raw_url
  | some c => if m.truncated then env.rawFetch m.raw_url else some c

/-- The file-download loop: returns the files written to disk (in order)
and whether every entry was fetched; a failing fetch raises, so nothing
after it is written and the whole call fails. -/
def downloadLoop (env : PullEnv) : List (String × FileMeta) → List (String × String) × Bool
  | [] => ([], true)
  | (name, m) :: rest =>
    match fetchContent env m with
    | none => ([], false)
    | some c =>
      let p := downloadLoop env rest
      ((name, c) :: p.1, p.2)

/-- `pull_agent(uid)`: the whole body is wrapped in `try/except`, and any
exception yields `None`.  The result is the pair (files written to disk,
returned directory path or `None`). -/
def pull_agent (env : PullEnv) (uid : ℕ) : List (String × String) × Option String :=
  match env.commitment with
  | none => ([], none)
  | some (block, g0) =>
    let g := normalize_locator g0
    match env.manifest g with
    | none => ([], none)
    | some files =>
      let dir_path := "agents/" ++ toString uid ++ "/" ++ toString block ++ "/"
      let p := downloadLoop env files
      if p.2 then (p.1, some dir_path) else (p.1, none)

/-! ## Validator evaluation loop (src/neurons/__init__.py lines 251-348)

The sandbox `vericore_agent.Container` is not under src/.  Modelled from
the spec: SandboxRunner builds and starts an isolated environment from a
file (build or start may fail with an exception), and `verify` either
raises (timeout, malformed response, transport error) or returns a
structured (JSON-ish) value. -/

/-- Outcome of one `c.verify(statement=..., timeout=10)` call on the
sandbox: an exception, or a returned dynamic value. -/
inductive InvokeOutcome where
  | raises : InvokeOutcome
  | returns : PyValue → InvokeOutcome

/-- One trial of the sampling loop: the expected verdict drawn by
`random.choice(test_statements)` and the invocation outcome. -/
structure TrialEnv where
  expected_verdict : Bool
  outcome : InvokeOutcome

/-- Whether one trial increments `success`:

    if isinstance(result, dict) and "verdict" in result:
        actual_verdict = result["verdict"]
        if actual_verdict == expected_verdict: success += 1

An invocation exception is caught by the per-sample `except` and counts
as not correct. -/
def trialCorrect (t : TrialEnv) : Bool :=
  match t.outcome with
  | .raises => false
  | .returns result =>
    match result with
    | .dict entries =>
      match lookupEntry "verdict" entries with
      | some v => pyEqBool v t.expected_verdict
      | none => false
    | _ => false

/-- The configured trial count (`SAMPLES = 10`). -/
def SAMPLES : ℕ := 10

/-- The `for sample_idx in range(n)` success counter. -/
def sampleLoop (trials : ℕ → TrialEnv) : ℕ → ℕ
  | 0 => 0
  | n + 1 => sampleLoop trials n + (if trialCorrect (trials n) then 1 else 0)

/-- `weights[uid] = float(success) / SAMPLES`, as an exact rational. -/
def sandboxScore (trials : ℕ → TrialEnv) : ℚ :=
  (sampleLoop trials SAMPLES : ℚ) / (SAMPLES : ℚ)

/-- Modelled from the spec: behaviour of `with Container(file) as c` for
one identity — entering the context manager may raise (build or start
failure), otherwise the sandbox answers each trial. -/
inductive ContainerOutcome where
  | startFails : ContainerOutcome
  | runs : (ℕ → TrialEnv) → ContainerOutcome

/-- Per-identity external environment of one cycle of the validator loop:
the result of `pull_agent(uid)` (which never raises), and the behaviour
of `Container` as a function of the file it is built from. -/
structure UidEnv where
  pull : Option String
  container : String → ContainerOutcome

/-- The hardcoded sandbox build input: `gen_tmp_file = "gen.py"`. -/
def genPyFile : String := "gen.py"

/-- The `for uid in uids` body of the validator cycle.  `w` is the
`weights` list (initialised to zeros).  A `Container` exception is not
caught per-identity: it propagates and aborts the cycle (`none`), as does
an out-of-range `weights[uid]` assignment (Python `IndexError`). -/
def cycleGo (env : ℕ → UidEnv) : List ℕ → List ℚ → Option (List ℚ)
  | [], w => some w
  | uid :: rest, w =>
    let _gen_tmp_file := (env uid).pull
    match (env uid).container genPyFile with
    | .startFails => none
    | .runs trials =>
      if uid < w.length then cycleGo env rest (w.set uid (sandboxScore trials))
      else none

/-- One cycle of the validator loop: `weights = [0 for _ in uids]`, then
the per-uid loop; `some w` is the score vector passed to
`sub.set_weights(...)`, `none` means the cycle aborted before
submission. -/
def runCycle (uids : List ℕ) (env : ℕ → UidEnv) : Option (List ℚ) :=
  cycleGo env uids (List.replicate uids.length 0)

/-! ## Watchdog (src/neurons/__init__.py lines 236-249)

Idealized discrete time: seconds as naturals, `asyncio.sleep` exact, so
the watchdog wakes at every positive multiple of its interval.  `lastHB`
gives, for each instant, the time of the most recent heartbeat update. -/

/-- The sleep interval `max(1, timeout // 3)`. -/
def watchInterval (timeout : ℕ) : ℕ := max 1 (timeout / 3)

/-- Whether the watchdog terminates the process at instant `t`: `t` is a
wake-up instant, and `elapsed = t - HEARTBEAT` exceeds the timeout. -/
def watchdogFires (timeout : ℕ) (lastHB : ℕ → ℕ) (t : ℕ) : Bool :=
  decide (t ≠ 0) && (t % watchInterval timeout == 0)
    && decide (timeout < t - lastHB t)

/-! ## Signature verifier (src/services/signature_verifier.py) -/

/-- Python exceptions relevant to the signature verifier: `ValueError`
(from `bytes.fromhex`) and FastAPI `HTTPException(status_code, detail)`. -/
inductive PyExn where
  | valueError : PyExn
  | httpException : ℕ → String → PyExn
deriving DecidableEq

/-- Constant from the source. -/
def HTTP_401_UNAUTHORIZED : ℕ := 401

/-- Constant from the source. -/
def ERROR_INVALID_WALLET : String := "Invalid wallet address"

/-- Constant from the source. -/
def ERROR_INVALID_SIGNATURE : String := "Invalid signature"

/-- Constant from the source. -/
def ERROR_SIGNATURE_VERIFICATION_FAILED : String := "Signature verification failed"

/-- Constant from the source (`REFRESH_INTERVAL_SECONDS = 300`). -/
def REFRESH_INTERVAL_SECONDS : ℕ := 300

/-- Hex value of one character, as in `bytes.fromhex`. -/
def hexVal (c : Char) : Option ℕ :=
  if 48 ≤ c.toNat ∧ c.toNat ≤ 57 then some (c.toNat - 48)
  else if 97 ≤ c.toNat ∧ c.toNat ≤ 102 then some (c.toNat - 87)
  else if 65 ≤ c.toNat ∧ c.toNat ≤ 70 then some (c.toNat - 55)
  else none

/-- `bytes.fromhex` on a character list: pairs of hex digits; odd length
or a non-hex character raises `ValueError`. -/
def hexDecodeL : List Char → Option (List ℕ)
  | [] => some []
  | [_] => none
  | a :: b :: rest =>
    match hexVal a, hexVal b, hexDecodeL rest with
    | some x, some y, some bs => some ((16 * x + y) :: bs)
    | _, _, _ => none

/-- `bytes.fromhex(signature)`. -/
def hexDecode (s : String) : Option (List ℕ) := hexDecodeL s.data

/-- The `try` body of `verify_request_signature`: decode the hex
signature, run the substrate verification primitive (`bt.Keypair.verify`,
an oracle `cv` from message and signature bytes to a boolean), and raise
`HTTPException(401, ERROR_INVALID_SIGNATURE)` when it reports the
signature invalid.  (UTF-8 encoding of the message is absorbed into the
oracle.) -/
def verify_request_signature_body (cv : String → List ℕ → Bool)
    (signature expected_message : String) : Except PyExn Bool :=
  match hexDecode signature with
  | none => .error .valueError
  | some signature_bytes =>
    let verified := cv expected_message signature_bytes
    if !verified then
      .error (.httpException HTTP_401_UNAUTHORIZED ERROR_INVALID_SIGNATURE)
    else
      .ok verified

/-- `verify_request_signature`: the blanket `except Exception` catches
every exception of the body — including the `HTTPException` the body
itself raised for an invalid signature — and re-raises
`HTTPException(401, ERROR_SIGNATURE_VERIFICATION_FAILED)`. -/
def verify_request_signature (cv : String → List ℕ → Bool)
    (signature expected_message : String) : Except PyExn Bool :=
  match verify_request_signature_body cv signature expected_message with
  | .ok b => .ok b
  | .error _ =>
    .error (.httpException HTTP_401_UNAUTHORIZED ERROR_SIGNATURE_VERIFICATION_FAILED)

/-- Mutable state of a `SignatureVerifier`: the cached metagraph hotkey
list (`none` when initialization failed) and `last_refresh_time`
(seconds, as naturals). -/
structure VerifierState where
  metagraph : Option (List String)
  last_refresh_time : ℕ
deriving DecidableEq

/-- Chain environment of one refresh attempt: the hotkey list
`metagraph.sync()` would produce, or `none` when the sync raises. -/
structure ChainEnv where
  syncResult : Option (List String)

/-- `refresh_metagraph`: refresh only when more than
`REFRESH_INTERVAL_SECONDS` elapsed since the last refresh; a sync failure
is caught and logged, leaving the state unchanged. -/
def refresh_metagraph (env : ChainEnv) (now : ℕ) (s : VerifierState) : VerifierState :=
  match s.metagraph with
  | none => s
  | some _ =>
    if REFRESH_INTERVAL_SECONDS < now - s.last_refresh_time then
      match env.syncResult with
      | some hks => ⟨some hks, now⟩
      | none => s
    else s

/-- `verify_wallet_hotkey`: with no metagraph the check is skipped and the
hotkey allowed; otherwise refresh, then raise `HTTPException(401,
ERROR_INVALID_WALLET)` when the hotkey is not in the (refreshed)
membership list. -/
def verify_wallet_hotkey (env : ChainEnv) (now : ℕ) (s : VerifierState)
    (wallet_hotkey : String) : VerifierState × Except PyExn String :=
  match s.metagraph with
  | none => (s, .ok wallet_hotkey)
  | some _ =>
    let s' := refresh_metagraph env now s
    if wallet_hotkey ∈ s'.metagraph.getD [] then (s', .ok wallet_hotkey)
    else (s', .error (.httpException HTTP_401_UNAUTHORIZED ERROR_INVALID_WALLET))

/-- `verify_signature(wallet_address, gist_url, signature)`: membership
check, then `verify_request_signature` on
`f"{wallet_address}:{gist_url}"`; `except HTTPException: raise` re-raises
every `HTTPException`, and only non-HTTP exceptions (which the modelled
callees never produce) would return `False`. -/
def verify_signature (cv : String → List ℕ → Bool) (env : ChainEnv) (now : ℕ)
    (s : VerifierState) (wallet_address gist_url signature : String) :
    VerifierState × Except PyExn Bool :=
  match verify_wallet_hotkey env now s wallet_address with
  | (s', .error e) => (s', .error e)
  | (s', .ok _) =>
    let expected_message := wallet_address ++ ":" ++ gist_url
    (s', verify_request_signature cv signature expected_message)

/-! ## Submission relay (src/services/verifier_service.py `send_submission`) -/

/-- Outcome of the HTTP POST to the verifier server: a response with a
status code and an optional parsed JSON object (`none` when the body is
not valid JSON), or a transport-level failure
(`requests.exceptions.RequestException`). -/
inductive HttpResult where
  | response : ℕ → Option (List (String × PyValue)) → HttpResult
  | networkFailure : HttpResult

/-- What `send_submission` does, as observed by its caller: return the
parsed JSON body (with the acceptance flag that drives the success /
"not saved" log branch), return `None` (the rate-limited path), or let an
exception propagate. -/
inductive SubmissionOutcome where
  | returned : List (String × PyValue) → Bool → SubmissionOutcome
  | returnedNone : SubmissionOutcome
  | raised : SubmissionOutcome

/-- The acceptance test on the response body:
`'submission_id' in response_json and response_json.get('rejection_reason') is None`. -/
def submissionAccepted (body : List (String × PyValue)) : Bool :=
  containsKey "submission_id" body &&
    (match lookupEntry "rejection_reason" body with
     | none => true
     | some .null => true
     | some _ => false)

/-- `send_submission` result handling:

* transport failure → `RequestException` → logged and re-raised;
* `raise_for_status()` raises `HTTPError` exactly for statuses in
  [400, 600); the handler returns `None` for 409 and re-raises otherwise;
* an unparseable body → `JSONDecodeError` (a `RequestException`) →
  re-raised;
* otherwise the parsed body is returned, with acceptance judged from the
  body, not the status code. -/
def send_submission : HttpResult → SubmissionOutcome
  | .networkFailure => .raised
  | .response status body =>
    if 400 ≤ status ∧ status < 600 then
      if status == 409 then .returnedNone else .raised
    else
      match body with
      | none => .raised
      | some response_json => .returned response_json (submissionAccepted response_json)

/-! ## Verification contract of the sandbox (src/envs/verify/main.py) -/

/-- The field names of `VerifyResponse`, in declaration order: the
documented response shape of the `/verify` contract. -/
def contractKeys : List String :=
  ["statement_id", "overall_score", "overall_verdict", "reasoning",
   "evidence", "response_metadata"]

/-- A response value conforming to the documented verification contract:
a JSON object with exactly the `VerifyResponse` fields, whose
`overall_verdict` is one of the three documented verdict strings. -/
def contractConforming (v : PyValue) : Bool :=
  match v with
  | .dict entries =>
    entries.map Prod.fst == contractKeys &&
      (match lookupEntry "overall_verdict" entries with
       | some (.str s) => s == "corroborates" || s == "refutes" || s == "neutral"
       | _ => false)
  | _ => false

/-! ## Concrete fixtures used by witnesses and counterexamples -/

/-- A sandbox behaviour answering every trial with a correct
`{"verdict": <bool>}` response. -/
def trialsGood : ℕ → TrialEnv :=
  fun _ => ⟨true, .returns (.dict [("verdict", .bool true)])⟩

/-- A container that builds, starts and answers all trials correctly. -/
def containerGood : String → ContainerOutcome := fun _ => .runs trialsGood

/-- An identity whose payload pull failed but whose `gen.py` container
runs perfectly. -/
def envPullFail : ℕ → UidEnv := fun _ => ⟨none, containerGood⟩

/-- An identity whose payload pull succeeded but whose container build /
start raises. -/
def envBuildFail : ℕ → UidEnv := fun _ => ⟨some "agents/7/1/", fun _ => .startFails⟩

/-- An identity whose pull succeeded and whose container runs. -/
def envPullOk : ℕ → UidEnv := fun _ => ⟨some "agents/7/1/", containerGood⟩

/-- A response obeying the documented `/verify` contract
(`VerifyResponse` of src/envs/verify/main.py). -/
def conformingResp : PyValue :=
  .dict [("statement_id", .str "stmt-1"),
         ("overall_score", .float (9 / 10)),
         ("overall_verdict", .str "corroborates"),
         ("reasoning", .str "Statement is corroborated."),
         ("evidence", .list [.dict [("source_url", .str "https://example.com/source1")]]),
         ("response_metadata", .dict [("search_queries_used", .num 1)])]

/-- A sandbox answering every trial with the contract-conforming
response. -/
def trialsConforming : ℕ → TrialEnv := fun _ => ⟨true, .returns conformingResp⟩

/-- A manifest entry with inline, untruncated content. -/
def metaA : FileMeta := ⟨some "FROM python:3.11", false, "https://gist.example/raw/a"⟩

/-- A manifest entry whose content must be fetched from its raw url. -/
def metaB : FileMeta := ⟨none, false, "https://gist.example/raw/b"⟩

/-- A pull environment where the manifest fetch succeeds but the raw-url
follow-up fetch of the second file fails. -/
def pullEnvPart : PullEnv :=
  ⟨some (5, "https://api.github.com/gists/abc"),
   fun _ => some [("gen.py", metaA), ("Dockerfile", metaB)],
   fun _ => none⟩

/-- A crypto oracle reporting every signature invalid. -/
def cvFalse : String → List ℕ → Bool := fun _ _ => false

/-- A chain whose sync yields a one-member hotkey list. -/
def chainEnvW : ChainEnv := ⟨some ["hk-alice"]⟩

/-- An initialized verifier state holding that member list, never yet
refreshed. -/
def verifierStateW : VerifierState := ⟨some ["hk-alice"], 0⟩

/-! ## Helper lemmas: strings and substrings -/

theorem leadsWithL_append (n : List Char) : ∀ (h t : List Char),
    leadsWithL n h = true → leadsWithL n (h ++ t) = true := by
  induction n with
  | nil => intro h t _; simp [leadsWithL]
  | cons a as ih =>
    intro h t hl
    cases h with
    | nil => simp [leadsWithL] at hl
    | cons b bs =>
      simp only [leadsWithL, Bool.and_eq_true] at hl
      simp only [List.cons_append, leadsWithL, Bool.and_eq_true]
      exact ⟨hl.1, ih bs t hl.2⟩

theorem containsSeqL_nil_needle : ∀ t : List Char, containsSeqL [] t = true := by
  intro t
  induction t with
  | nil => rfl
  | cons c rest ih => simp [containsSeqL, leadsWithL]

theorem containsSeqL_append (n : List Char) : ∀ (h t : List Char),
    containsSeqL n h = true → containsSeqL n (h ++ t) = true := by
  intro h
  induction h with
  | nil =>
    intro t hc
    simp only [containsSeqL, List.isEmpty_iff] at hc
    subst hc
    simpa using containsSeqL_nil_needle t
  | cons c rest ih =>
    intro t hc
    simp only [containsSeqL, Bool.or_eq_true] at hc
    simp only [List.cons_append, containsSeqL, Bool.or_eq_true]
    rcases hc with hc | hc
    · exact Or.inl (by simpa [List.cons_append] using leadsWithL_append n (c :: rest) t hc)
    · exact Or.inr (ih t hc)

theorem str_data_append (a b : String) : (a ++ b).data = a.data ++ b.data := by
  cases a
  cases b
  rfl

theorem gistApiLead_leads (x : String) : leadsWith "http" (gistApiLead ++ x) = true := by
  unfold leadsWith
  rw [str_data_append]
  exact leadsWithL_append _ _ _ (by decide)

theorem gistApiLead_contains (x : String) : containsSeq apiHost (gistApiLead ++ x) = true := by
  unfold containsSeq
  rw [str_data_append]
  exact containsSeqL_append _ _ _ (by decide)

theorem norm_canonical (g : String) :
    leadsWith "http" (normalize_locator g) = true
      ∧ containsSeq apiHost (normalize_locator g) = true := by
  unfold normalize_locator
  by_cases h1 : (leadsWith "http" g && !containsSeq apiHost g) = true
  · rw [if_pos h1]
    by_cases h2 : leadsWith "http" (gistApiLead ++ String.mk (lastSegL (rstripSlashL g.data))) = true
    · rw [if_neg (by simp [h2])]
      exact ⟨h2, gistApiLead_contains _⟩
    · rw [if_pos (by simp [Bool.not_eq_true] at h2; simp [h2])]
      exact ⟨gistApiLead_leads _, gistApiLead_contains _⟩
  · rw [if_neg h1]
    by_cases h2 : leadsWith "http" g = true
    · rw [if_neg (by simp [h2])]
      refine ⟨h2, ?_⟩
      cases hcq : containsSeq apiHost g with
      | true => rfl
      | false => exact absurd (by simp [h2, hcq]) h1
    · rw [if_pos (by simp [Bool.not_eq_true] at h2; simp [h2])]
      exact ⟨gistApiLead_leads _, gistApiLead_contains _⟩

theorem norm_of_canonical (g : String) (h1 : leadsWith "http" g = true)
    (h2 : containsSeq apiHost g = true) : normalize_locator g = g := by
  unfold normalize_locator
  simp [h1, h2]

/-- C9: locator normalization is idempotent — an already-canonical
locator (a URL containing the canonical API host) is returned unchanged,
and one application of `normalize_locator` always yields a fixed point,
so normalizing twice equals normalizing once, for bare identifiers and
partial URLs included. -/
theorem normalize_locator_idempotent (g : String) :
    normalize_locator (normalize_locator g) = normalize_locator g
      ∧ (alreadyCanonical g = true → normalize_locator g = g) := by
  constructor
  · obtain ⟨a, b⟩ := norm_canonical g
    exact norm_of_canonical _ a b
  · intro hca
    simp only [alreadyCanonical, Bool.and_eq_true] at hca
    exact norm_of_canonical _ hca.1 hca.2

/-- Witness for C9 at a concrete canonical locator. -/
theorem normalize_locator_idempotent_witness :
    alreadyCanonical "https://api.github.com/gists/abc123" = true
      ∧ normalize_locator "https://api.github.com/gists/abc123"
          = "https://api.github.com/gists/abc123" :=
  ⟨by decide, (normalize_locator_idempotent "https://api.github.com/gists/abc123").2 (by decide)⟩

/-! ## Helper lemmas: the validator cycle loop -/

theorem cycleGo_none_iff (env : ℕ → UidEnv) : ∀ (rest : List ℕ) (w : List ℚ),
    cycleGo env rest w = none ↔
      ∃ uid ∈ rest, (env uid).container genPyFile = ContainerOutcome.startFails
        ∨ w.length ≤ uid := by
  intro rest
  induction rest with
  | nil => intro w; simp [cycleGo]
  | cons u rest ih =>
    intro w
    cases hc : (env u).container genPyFile with
    | startFails =>
      refine iff_of_true (by simp [cycleGo, hc]) ⟨u, List.mem_cons_self u rest, Or.inl hc⟩
    | runs trials =>
      by_cases hlt : u < w.length
      · have heq : cycleGo env (u :: rest) w
            = cycleGo env rest (w.set u (sandboxScore trials)) := by
          simp [cycleGo, hc, hlt]
        rw [heq, ih]
        constructor
        · rintro ⟨uid, hm, hcase⟩
          exact ⟨uid, List.mem_cons_of_mem _ hm, by simpa [List.length_set] using hcase⟩
        · rintro ⟨uid, hm, hcase⟩
          rcases List.mem_cons.mp hm with rfl | hm'
          · rcases hcase with hf | hlen
            · rw [hc] at hf
              exact absurd hf (by simp)
            · omega
          · exact ⟨uid, hm', by simpa [List.length_set] using hcase⟩
      · have heq : cycleGo env (u :: rest) w = none := by simp [cycleGo, hc, hlt]
        rw [heq]
        exact iff_of_true rfl ⟨u, List.mem_cons_self u rest, Or.inr (by omega)⟩

theorem cycleGo_length (env : ℕ → UidEnv) : ∀ (rest : List ℕ) (w w' : List ℚ),
    cycleGo env rest w = some w' → w'.length = w.length := by
  intro rest
  induction rest with
  | nil =>
    intro w w' h
    simp [cycleGo] at h
    rw [h]
  | cons u rest ih =>
    intro w w' h
    cases hc : (env u).container genPyFile with
    | startFails => simp [cycleGo, hc] at h
    | runs trials =>
      by_cases hlt : u < w.length
      · have heq : cycleGo env rest (w.set u (sandboxScore trials)) = some w' := by
          simpa [cycleGo, hc, hlt] using h
        have := ih _ _ heq
        simpa [List.length_set] using this
      · simp [cycleGo, hc, hlt] at h

theorem cycleGo_get_not_mem (env : ℕ → UidEnv) : ∀ (rest : List ℕ) (w w' : List ℚ)
    (uid : ℕ), cycleGo env rest w = some w' → uid ∉ rest → w'.get? uid = w.get? uid := by
  intro rest
  induction rest with
  | nil =>
    intro w w' uid h _
    simp [cycleGo] at h
    rw [h]
  | cons u rest ih =>
    intro w w' uid h hnm
    have hne : u ≠ uid := fun he => hnm (he ▸ List.mem_cons_self u rest)
    have hnm' : uid ∉ rest := fun hm => hnm (List.mem_cons_of_mem _ hm)
    cases hc : (env u).container genPyFile with
    | startFails => simp [cycleGo, hc] at h
    | runs trials =>
      by_cases hlt : u < w.length
      · have heq : cycleGo env rest (w.set u (sandboxScore trials)) = some w' := by
          simpa [cycleGo, hc, hlt] using h
        rw [ih _ _ _ heq hnm']
        exact List.get?_set_ne _ _ hne
      · simp [cycleGo, hc, hlt] at h

theorem cycleGo_get_mem (env : ℕ → UidEnv) : ∀ (rest : List ℕ) (w w' : List ℚ)
    (uid : ℕ) (trials : ℕ → TrialEnv),
    cycleGo env rest w = some w' → uid ∈ rest →
    (env uid).container genPyFile = ContainerOutcome.runs trials →
    w'.get? uid = some (sandboxScore trials) := by
  intro rest
  induction rest with
  | nil => intro w w' uid trials _ hm; simp at hm
  | cons u rest ih =>
    intro w w' uid trials h hm hct
    cases hc : (env u).container genPyFile with
    | startFails => simp [cycleGo, hc] at h
    | runs t' =>
      by_cases hlt : u < w.length
      · have heq : cycleGo env rest (w.set u (sandboxScore t')) = some w' := by
          simpa [cycleGo, hc, hlt] using h
        by_cases hmem : uid ∈ rest
        · exact ih _ _ _ _ heq hmem hct
        · have huid : uid = u := by
            rcases List.mem_cons.mp hm with h' | h'
            · exact h'
            · exact absurd h' hmem
          subst huid
          have ht : t' = trials := by
            rw [hct] at hc
            exact (ContainerOutcome.runs.inj hc).symm
          subst ht
          rw [cycleGo_get_not_mem env rest _ _ uid heq hmem]
          exact List.get?_set_eq_of_lt _ hlt
      · simp [cycleGo, hc, hlt] at h

/-! ## Helper lemmas: the sampling loop -/

theorem sampleLoop_eq_countP (trials : ℕ → TrialEnv) : ∀ n : ℕ,
    sampleLoop trials n = (List.range n).countP fun i => trialCorrect (trials i) := by
  intro n
  induction n with
  | zero => rfl
  | succ k ih =>
    rw [List.range_succ, List.countP_append]
    simp [sampleLoop, ih, List.countP_cons]

theorem sampleLoop_le (trials : ℕ → TrialEnv) : ∀ n : ℕ, sampleLoop trials n ≤ n := by
  intro n
  induction n with
  | zero => exact le_rfl
  | succ k ih =>
    unfold sampleLoop
    by_cases h : trialCorrect (trials k) = true
    · simp [h]; omega
    · simp [h]; omega

theorem runCycle_envPullOk : runCycle [0] envPullOk = some [1] := by
  have h10 : sampleLoop trialsGood 10 = 10 := by decide
  simp [runCycle, cycleGo, envPullOk, containerGood, sandboxScore, h10, SAMPLES]

/-! ## Claims C1, C2, C5 -/

/-- C1 (amended): in the validator cycle, a failed payload pull neither
aborts the cycle nor forces the identity's score to 0 — the pulled
payload is discarded and the sandbox is always built from the fixed file
`gen.py` — while a sandbox build / start failure (or an out-of-range uid
index) aborts the whole cycle, so no score vector at all is submitted for
that cycle; when the cycle does complete, the submitted vector has one
entry per position for the full uid list (no omissions). -/
theorem validator_cycle_failure_handling (uids : List ℕ) (env : ℕ → UidEnv) :
    (runCycle uids env = none ↔
       ∃ uid ∈ uids, (env uid).container genPyFile = ContainerOutcome.startFails
         ∨ uids.length ≤ uid)
      ∧ ∀ w, runCycle uids env = some w → w.length = uids.length := by
  constructor
  · simpa [runCycle, List.length_replicate]
      using cycleGo_none_iff env uids (List.replicate uids.length 0)
  · intro w h
    have := cycleGo_length env uids _ w h
    simpa [List.length_replicate] using this

/-- Witness for C1 (amended): a concrete completed cycle yields a
full-length vector. -/
theorem validator_cycle_failure_handling_witness :
    runCycle [0] envPullOk = some [1] ∧ ([1] : List ℚ).length = [0].length :=
  ⟨runCycle_envPullOk,
   (validator_cycle_failure_handling [0] envPullOk).2 [1] runCycle_envPullOk⟩

/-- C1 as stated is false on the code: here is an identity whose payload
pull fails, yet whose score for the cycle is 1, not 0 (the pulled payload
is discarded and `gen.py` is used); and an identity whose sandbox build /
start fails, which aborts the whole cycle instead of scoring 0 and
continuing — nothing is submitted. -/
theorem validator_pull_failure_not_scored_zero :
    (envPullFail 0).pull = none
      ∧ runCycle [0] envPullFail = some [1]
      ∧ (1 : ℚ) ≠ 0
      ∧ (envBuildFail 0).container genPyFile = ContainerOutcome.startFails
      ∧ runCycle [0] envBuildFail = none := by
  refine ⟨rfl, ?_, by norm_num, rfl, rfl⟩
  have h10 : sampleLoop trialsGood 10 = 10 := by decide
  simp [runCycle, cycleGo, envPullFail, containerGood, sandboxScore, h10, SAMPLES]

/-- C2: every identity that reaches the sampling phase is scored exactly
(number of correct trials) / (configured trial count 10), where a trial
whose invocation raises or whose result lacks a well-formed verdict is
counted incorrect by `trialCorrect` (the denominator stays `SAMPLES`),
and the score lies in [0, 1]. -/
theorem validator_score_formula (uids : List ℕ) (env : ℕ → UidEnv) (w : List ℚ)
    (uid : ℕ) (trials : ℕ → TrialEnv)
    (hw : runCycle uids env = some w) (hm : uid ∈ uids)
    (hc : (env uid).container genPyFile = ContainerOutcome.runs trials) :
    SAMPLES = 10
      ∧ w.get? uid
          = some ((((List.range SAMPLES).countP fun i => trialCorrect (trials i) : ℕ) : ℚ)
              / (SAMPLES : ℚ))
      ∧ ∃ q : ℚ, w.get? uid = some q ∧ 0 ≤ q ∧ q ≤ 1 := by
  have hw' : cycleGo env uids (List.replicate uids.length 0) = some w := hw
  have hg : w.get? uid = some (sandboxScore trials) :=
    cycleGo_get_mem env uids _ w uid trials hw' hm hc
  refine ⟨rfl, ?_, sandboxScore trials, hg, ?_, ?_⟩
  · rw [hg]
    unfold sandboxScore
    rw [sampleLoop_eq_countP]
  · unfold sandboxScore
    positivity
  · unfold sandboxScore
    rw [div_le_one (by norm_num [SAMPLES])]
    exact_mod_cast sampleLoop_le trials SAMPLES

/-- Witness for C2 at a concrete completed cycle. -/
theorem validator_score_formula_witness :
    runCycle [0] envPullOk = some [1]
      ∧ (0 ∈ ([0] : List ℕ))
      ∧ (envPullOk 0).container genPyFile = ContainerOutcome.runs trialsGood
      ∧ (SAMPLES = 10
          ∧ ([1] : List ℚ).get? 0
              = some ((((List.range SAMPLES).countP
                    fun i => trialCorrect (trialsGood i) : ℕ) : ℚ) / (SAMPLES : ℚ))
          ∧ ∃ q : ℚ, ([1] : List ℚ).get? 0 = some q ∧ 0 ≤ q ∧ q ≤ 1) :=
  ⟨runCycle_envPullOk, List.mem_cons_self 0 [], rfl,
   validator_score_formula [0] envPullOk [1] 0 trialsGood runCycle_envPullOk
     (List.mem_cons_self 0 []) rfl⟩

/-- C5 (implicit): the score vector of a cycle is independent of the
pulled payloads — it depends only on each identity's container behaviour
on the fixed file `gen.py`.  Two runs that differ in the downloaded
payload bytes, in whether the pull succeeded at all, or even in container
behaviour on any other input file, produce identical outcomes. -/
theorem score_independent_of_payload (uids : List ℕ) (env1 env2 : ℕ → UidEnv)
    (h : ∀ uid, (env1 uid).container genPyFile = (env2 uid).container genPyFile) :
    runCycle uids env1 = runCycle uids env2 := by
  unfold runCycle
  suffices hgo : ∀ (rest : List ℕ) (w : List ℚ),
      cycleGo env1 rest w = cycleGo env2 rest w from hgo uids _
  intro rest
  induction rest with
  | nil => intro w; rfl
  | cons u rest ih =>
    intro w
    show cycleGo env1 (u :: rest) w = cycleGo env2 (u :: rest) w
    simp only [cycleGo, h u]
    cases (env2 u).container genPyFile with
    | startFails => rfl
    | runs trials =>
      by_cases hlt : u < w.length
      · simp [hlt, ih]
      · simp [hlt]

/-- Witness for C5: a successful pull of a payload and a failed pull,
with the same container behaviour, give the same cycle outcome. -/
theorem score_independent_of_payload_witness :
    runCycle [0] envPullOk = runCycle [0] envPullFail :=
  score_independent_of_payload [0] envPullOk envPullFail (fun _ => rfl)

/-! ## Claim C3: watchdog -/

theorem exists_multiple_in_window (I d : ℕ) (hI : 0 < I) :
    ∃ t, d < t ∧ t ≤ d + I ∧ t % I = 0 ∧ t ≠ 0 := by
  refine ⟨I * (d / I + 1), ?_, ?_, Nat.mul_mod_right I _, ?_⟩
  all_goals
    have hdm := Nat.div_add_mod d I
    have hmod : d % I < I := Nat.mod_lt _ hI
    rw [Nat.mul_succ]
    omega

/-- C3: over the idealized discrete time line, if no heartbeat update
occurs after instant `h`, the watchdog fires at some wake-up instant
within one monitoring interval (`max(1, timeout // 3)`) after the
deadline `h + timeout` passes; conversely, if a heartbeat always happened
within the last `timeout / 3` seconds, the watchdog never fires. -/
theorem watchdog_liveness_and_safety (timeout : ℕ) (lastHB : ℕ → ℕ) :
    (∀ h : ℕ, (∀ t, h ≤ t → lastHB t = h) →
        ∃ t, h + timeout < t ∧ t ≤ h + timeout + watchInterval timeout
          ∧ watchdogFires timeout lastHB t = true)
      ∧ ((∀ t, t - lastHB t ≤ timeout / 3) →
          ∀ t, watchdogFires timeout lastHB t = false) := by
  constructor
  · intro h hstall
    have hIpos : 0 < watchInterval timeout :=
      lt_of_lt_of_le one_pos (le_max_left 1 (timeout / 3))
    obtain ⟨t, ht1, ht2, ht3, ht4⟩ :=
      exists_multiple_in_window (watchInterval timeout) (h + timeout) hIpos
    refine ⟨t, ht1, ht2, ?_⟩
    have hhb : lastHB t = h := hstall t (by omega)
    simp only [watchdogFires, hhb, Bool.and_eq_true, decide_eq_true_eq, beq_iff_eq]
    exact ⟨⟨ht4, ht3⟩, by omega⟩
  · intro hbeat t
    have hle : t - lastHB t ≤ timeout / 3 := hbeat t
    have hles : timeout / 3 ≤ timeout := Nat.div_le_self _ _
    have hnot : ¬ (timeout < t - lastHB t) := by omega
    simp [watchdogFires, hnot]

/-- Witness for C3: with a heartbeat frozen at 0 and timeout 300 the
watchdog fires within (300, 400]; with a heartbeat at every instant it
never fires. -/
theorem watchdog_liveness_and_safety_witness :
    (∃ t, 0 + 300 < t ∧ t ≤ 0 + 300 + watchInterval 300
        ∧ watchdogFires 300 (fun _ => 0) t = true)
      ∧ (∀ t, watchdogFires 300 (fun u => u) t = false) :=
  ⟨(watchdog_liveness_and_safety 300 (fun _ => 0)).1 0 (fun _ _ => rfl),
   (watchdog_liveness_and_safety 300 (fun u => u)).2 (fun t => by simp)⟩

/-! ## Claim C4: signature verification error behaviour -/

/-- C4 is false on the code: for a well-formed hex signature (`"00"`) and
a non-empty message, a cryptographically invalid signature does not make
verification return `False` — `verify_request_signature` raises
`HTTPException(401, "Signature verification failed")` (the inner 401 it
raises for the invalid signature is itself swallowed by the blanket
`except Exception` and re-raised as the generic verification failure). -/
theorem verify_signature_invalid_not_false :
    hexDecode "00" = some [0]
      ∧ ("m" : String) ≠ ""
      ∧ verify_request_signature cvFalse "00" "m"
          = Except.error (PyExn.httpException HTTP_401_UNAUTHORIZED
              ERROR_SIGNATURE_VERIFICATION_FAILED)
      ∧ verify_request_signature cvFalse "00" "m" ≠ Except.ok false := by
  refine ⟨by decide, by decide, rfl, ?_⟩
  intro h
  exact Except.noConfusion h

/-- C4 (amended): for every hex-decodable signature and every message, a
crypto-oracle verdict of "invalid" makes `verify_request_signature` raise
`HTTPException(401, "Signature verification failed")` rather than return
`False`; malformed input (a non-hex signature, whose `bytes.fromhex`
raises `ValueError`) raises that very same 401 error, not a distinct
verification error; and `verify_signature` never returns `False` through
this path either — it either returns `True` or raises an
`HTTPException`. -/
theorem verify_request_signature_raises_on_invalid
    (cv : String → List ℕ → Bool) (signature msg : String) (bs : List ℕ)
    (hhex : hexDecode signature = some bs) (hcv : cv msg bs = false) :
    verify_request_signature cv signature msg
        = Except.error (PyExn.httpException HTTP_401_UNAUTHORIZED
            ERROR_SIGNATURE_VERIFICATION_FAILED)
      ∧ (∀ (cv2 : String → List ℕ → Bool) (sig2 msg2 : String),
          hexDecode sig2 = none →
          verify_request_signature cv2 sig2 msg2
            = Except.error (PyExn.httpException HTTP_401_UNAUTHORIZED
                ERROR_SIGNATURE_VERIFICATION_FAILED))
      ∧ ∀ (cv' : String → List ℕ → Bool) (env : ChainEnv) (now : ℕ)
          (s : VerifierState) (a g sig : String),
          (verify_signature cv' env now s a g sig).2 ≠ Except.ok false := by
  refine ⟨?_, ?_, ?_⟩
  · unfold verify_request_signature verify_request_signature_body
    simp [hhex, hcv]
  · intro cv2 sig2 msg2 hnone
    unfold verify_request_signature verify_request_signature_body
    simp [hnone]
  · intro cv' env now s a g sig hcontra
    unfold verify_signature at hcontra
    rcases hp : verify_wallet_hotkey env now s a with ⟨s', r⟩
    rw [hp] at hcontra
    cases r with
    | error e => simp at hcontra
    | ok x =>
      simp only at hcontra
      unfold verify_request_signature verify_request_signature_body at hcontra
      cases hhd : hexDecode sig with
      | none => simp [hhd] at hcontra
      | some bs' =>
        cases hb : cv' (a ++ ":" ++ g) bs' with
        | false => simp [hhd, hb] at hcontra
        | true => simp [hhd, hb] at hcontra

/-- Witness for C4 (amended) at a concrete invalid signature, and at the
concrete non-hex signature `"zz"` for the malformed-input conjunct. -/
theorem verify_request_signature_raises_on_invalid_witness :
    hexDecode "00" = some [0]
      ∧ cvFalse "msg" [0] = false
      ∧ hexDecode "zz" = none
      ∧ (verify_request_signature cvFalse "00" "msg"
            = Except.error (PyExn.httpException HTTP_401_UNAUTHORIZED
                ERROR_SIGNATURE_VERIFICATION_FAILED)
          ∧ (∀ (cv2 : String → List ℕ → Bool) (sig2 msg2 : String),
              hexDecode sig2 = none →
              verify_request_signature cv2 sig2 msg2
                = Except.error (PyExn.httpException HTTP_401_UNAUTHORIZED
                    ERROR_SIGNATURE_VERIFICATION_FAILED))
          ∧ ∀ (cv' : String → List ℕ → Bool) (env : ChainEnv) (now : ℕ)
              (s : VerifierState) (a g sig : String),
              (verify_signature cv' env now s a g sig).2 ≠ Except.ok false)
      ∧ verify_request_signature cvFalse "zz" "msg"
          = Except.error (PyExn.httpException HTTP_401_UNAUTHORIZED
              ERROR_SIGNATURE_VERIFICATION_FAILED) :=
  ⟨by decide, rfl, by decide,
   verify_request_signature_raises_on_invalid cvFalse "00" "msg" [0] (by decide) rfl,
   (verify_request_signature_raises_on_invalid cvFalse "00" "msg" [0] (by decide) rfl).2.1
     cvFalse "zz" "msg" (by decide)⟩

/-! ## Claim C6: submission announce outcome mapping -/

/-- C6 is false for 3xx responses: a 300 status is not 2xx, is not 409
and is not a network failure, yet `send_submission` does not propagate an
error for it — `raise_for_status` only raises for statuses in [400, 600),
so the 3xx response falls through to body handling and is returned. -/
theorem send_submission_non2xx_not_raised :
    ¬ (200 ≤ 300 ∧ 300 < 300)
      ∧ (300 : ℕ) ≠ 409
      ∧ send_submission (HttpResult.response 300 (some []))
          = SubmissionOutcome.returned [] false
      ∧ send_submission (HttpResult.response 300 (some [])) ≠ SubmissionOutcome.raised := by
  refine ⟨by omega, by omega, rfl, ?_⟩
  intro h
  exact SubmissionOutcome.noConfusion h

/-- C6 (amended): `send_submission` maps HTTP 409 to the rate-limited
null result with no exception, maps network failures and every other 4xx
/ 5xx status to a propagated error, and for statuses below 400 (2xx, but
also 3xx, which `raise_for_status` does not raise on) determines
acceptance by the presence of `submission_id` and a null / absent
`rejection_reason` in the JSON body — not by the status code — raising
only when the body is unparseable. -/
theorem send_submission_outcome_map :
    (∀ body, send_submission (HttpResult.response 409 body) = SubmissionOutcome.returnedNone)
      ∧ send_submission HttpResult.networkFailure = SubmissionOutcome.raised
      ∧ (∀ status body, 400 ≤ status → status < 600 → status ≠ 409 →
          send_submission (HttpResult.response status body) = SubmissionOutcome.raised)
      ∧ (∀ status, status < 400 →
          send_submission (HttpResult.response status none) = SubmissionOutcome.raised)
      ∧ (∀ status obj, status < 400 →
          send_submission (HttpResult.response status (some obj))
            = SubmissionOutcome.returned obj (submissionAccepted obj)) := by
  refine ⟨?_, rfl, ?_, ?_, ?_⟩
  · intro body
    simp [send_submission]
  · intro status body h1 h2 h3
    simp only [send_submission]
    rw [if_pos ⟨h1, h2⟩, if_neg (by simpa using h3)]
  · intro status h
    simp only [send_submission]
    rw [if_neg (by omega)]
  · intro status obj h
    simp only [send_submission]
    rw [if_neg (by omega)]

/-- Witness for C6 (amended) at concrete responses. -/
theorem send_submission_outcome_map_witness :
    send_submission (HttpResult.response 409 (some [])) = SubmissionOutcome.returnedNone
      ∧ send_submission (HttpResult.response 500 none) = SubmissionOutcome.raised
      ∧ send_submission (HttpResult.response 200 (some [("submission_id", PyValue.str "abc")]))
          = SubmissionOutcome.returned [("submission_id", PyValue.str "abc")] true := by
  refine ⟨send_submission_outcome_map.1 (some []),
    send_submission_outcome_map.2.2.1 500 none (by omega) (by omega) (by omega), ?_⟩
  rw [send_submission_outcome_map.2.2.2.2 200 [("submission_id", PyValue.str "abc")] (by omega)]
  rfl

/-! ## Claim C7: all-or-nothing download -/

theorem downloadLoop_mem_fail (env : PullEnv) : ∀ (files : List (String × FileMeta))
    (name : String) (m : FileMeta),
    (name, m) ∈ files → fetchContent env m = none → (downloadLoop env files).2 = false := by
  intro files
  induction files with
  | nil => intro name m hm; simp at hm
  | cons p rest ih =>
    intro name m hm hfc
    rcases p with ⟨n', m'⟩
    rcases List.mem_cons.mp hm with heq | hm'
    · have hm2 : m' = m := (Prod.mk.injEq .. ▸ heq).2.symm
      subst hm2
      simp [downloadLoop, hfc]
    · cases hfc' : fetchContent env m' with
      | none => simp [downloadLoop, hfc']
      | some c =>
        simp only [downloadLoop, hfc']
        exact ih name m hm' hfc

/-- C7: payload download is all-or-nothing — if the commitment read, the
manifest fetch, or the fetch of any single constituent file fails, then
`pull_agent` returns no directory path at all (`None`), no matter how
many files were already fetched before the failure. -/
theorem pull_agent_all_or_nothing (env : PullEnv) (uid : ℕ) :
    (env.commitment = none → (pull_agent env uid).2 = none)
      ∧ (∀ block g, env.commitment = some (block, g) →
          env.manifest (normalize_locator g) = none → (pull_agent env uid).2 = none)
      ∧ (∀ block g files name m, env.commitment = some (block, g) →
          env.manifest (normalize_locator g) = some files →
          (name, m) ∈ files → fetchContent env m = none →
          (pull_agent env uid).2 = none) := by
  refine ⟨?_, ?_, ?_⟩
  · intro h
    simp [pull_agent, h]
  · intro block g hbc hman
    simp [pull_agent, hbc, hman]
  · intro block g files name m hbc hman hmem hfc
    have hdl : (downloadLoop env files).2 = false := downloadLoop_mem_fail env files name m hmem hfc
    simp [pull_agent, hbc, hman, hdl]

/-- Witness for C7: a pull whose second file fetch fails returns no
path. -/
theorem pull_agent_all_or_nothing_witness :
    pullEnvPart.commitment = some (5, "https://api.github.com/gists/abc")
      ∧ pullEnvPart.manifest (normalize_locator "https://api.github.com/gists/abc")
          = some [("gen.py", metaA), ("Dockerfile", metaB)]
      ∧ ("Dockerfile", metaB) ∈ [("gen.py", metaA), ("Dockerfile", metaB)]
      ∧ fetchContent pullEnvPart metaB = none
      ∧ (pull_agent pullEnvPart 7).2 = none :=
  ⟨rfl, rfl, List.mem_cons_of_mem _ (List.mem_cons_self _ _), rfl,
   (pull_agent_all_or_nothing pullEnvPart 7).2.2 5 "https://api.github.com/gists/abc"
     [("gen.py", metaA), ("Dockerfile", metaB)] "Dockerfile" metaB rfl rfl
     (List.mem_cons_of_mem _ (List.mem_cons_self _ _)) rfl⟩

/-! ## Claim C8: membership gate and refresh interval -/

/-- C8: with an initialized metagraph, every hotkey absent from the
(refreshed) membership list is rejected by `verify_wallet_hotkey` with
`HTTPException(401, "Invalid wallet address")`; and `refresh_metagraph`
performs no chain fetch at all within `REFRESH_INTERVAL_SECONDS` (300 s)
of the recorded last refresh — the state is returned unchanged — so the
list is refreshed from the chain at most once per fixed 300-second
interval. -/
theorem membership_check_and_refresh_bound :
    (∀ (env : ChainEnv) (now : ℕ) (s : VerifierState) (hk : String) (hks : List String),
        s.metagraph.isSome = true →
        (refresh_metagraph env now s).metagraph = some hks →
        hk ∉ hks →
        (verify_wallet_hotkey env now s hk).2
          = Except.error (PyExn.httpException HTTP_401_UNAUTHORIZED ERROR_INVALID_WALLET))
      ∧ (∀ (env : ChainEnv) (now : ℕ) (s : VerifierState),
          now ≤ s.last_refresh_time + REFRESH_INTERVAL_SECONDS →
          refresh_metagraph env now s = s) := by
  constructor
  · intro env now s hk hks hsome href hnot
    rcases hsm : s.metagraph with _ | m0
    · rw [hsm] at hsome
      simp at hsome
    · simp only [verify_wallet_hotkey, hsm]
      simp [href, hnot]
  · intro env now s hle
    have h300 : REFRESH_INTERVAL_SECONDS = 300 := rfl
    unfold refresh_metagraph
    cases hsm : s.metagraph with
    | none => rfl
    | some m => rw [if_neg (by omega)]

/-- Witness for C8: `hk-bob` is not a member, so the check raises 401;
and a refresh attempt 100 s after the last refresh is a no-op. -/
theorem membership_check_and_refresh_bound_witness :
    verifierStateW.metagraph.isSome = true
      ∧ (refresh_metagraph chainEnvW 400 verifierStateW).metagraph = some ["hk-alice"]
      ∧ ("hk-bob" ∉ (["hk-alice"] : List String))
      ∧ (verify_wallet_hotkey chainEnvW 400 verifierStateW "hk-bob").2
          = Except.error (PyExn.httpException HTTP_401_UNAUTHORIZED ERROR_INVALID_WALLET)
      ∧ ((100 : ℕ) ≤ verifierStateW.last_refresh_time + REFRESH_INTERVAL_SECONDS
          ∧ refresh_metagraph chainEnvW 100 verifierStateW = verifierStateW) :=
  ⟨rfl, by decide, by decide,
   membership_check_and_refresh_bound.1 chainEnvW 400 verifierStateW "hk-bob" ["hk-alice"]
     rfl (by decide) (by decide),
   by decide,
   membership_check_and_refresh_bound.2 chainEnvW 100 verifierStateW (by decide)⟩

/-! ## Claim C10: contract-conforming responses score zero -/

theorem lookupEntry_none_of_not_mem (k : String) : ∀ entries : List (String × PyValue),
    k ∉ entries.map Prod.fst → lookupEntry k entries = none := by
  intro entries
  induction entries with
  | nil => intro _; rfl
  | cons p rest ih =>
    intro hnm
    rcases p with ⟨k', v⟩
    simp only [List.map_cons, List.mem_cons] at hnm
    push_neg at hnm
    simp only [lookupEntry]
    rw [if_neg (by simpa using hnm.1)]
    exact ih hnm.2

/-- C10 (implicit): a sandbox response that conforms to the documented
verification contract — a JSON object with exactly the `VerifyResponse`
fields, whose verdict field is named `overall_verdict` with a value among
corroborates / refutes / neutral — is always counted as an incorrect
trial, because the validator's check requires a key named `verdict` equal
to a boolean; consequently an agent that always answers with
contract-conforming responses scores exactly 0. -/
theorem conforming_response_scores_zero :
    (∀ (e : Bool) (v : PyValue), contractConforming v = true →
        trialCorrect ⟨e, InvokeOutcome.returns v⟩ = false)
      ∧ (∀ trials : ℕ → TrialEnv,
          (∀ i, i < SAMPLES → ∀ v, (trials i).outcome = InvokeOutcome.returns v →
            contractConforming v = true) →
          sandboxScore trials = 0) := by
  have hkey : ∀ (e : Bool) (v : PyValue), contractConforming v = true →
      trialCorrect ⟨e, InvokeOutcome.returns v⟩ = false := by
    intro e v hconf
    cases v with
    | null => simp [contractConforming] at hconf
    | bool b => simp [contractConforming] at hconf
    | num n => simp [contractConforming] at hconf
    | float q => simp [contractConforming] at hconf
    | str s => simp [contractConforming] at hconf
    | list l => simp [contractConforming] at hconf
    | dict entries =>
      simp only [contractConforming, Bool.and_eq_true, beq_iff_eq] at hconf
      have hnk : "verdict" ∉ entries.map Prod.fst := by
        rw [hconf.1]
        decide
      have hlu : lookupEntry "verdict" entries = none :=
        lookupEntry_none_of_not_mem _ _ hnk
      simp [trialCorrect, hlu]
  refine ⟨hkey, ?_⟩
  intro trials htr
  have hall : ∀ i, i < SAMPLES → trialCorrect (trials i) = false := by
    intro i hi
    rcases ho : (trials i).outcome with _ | v
    · simp [trialCorrect, ho]
    · have hcv := htr i hi v ho
      simpa [trialCorrect, ho] using hkey (trials i).expected_verdict v hcv
  have hsl : ∀ n, n ≤ SAMPLES → sampleLoop trials n = 0 := by
    intro n
    induction n with
    | zero => intro _; rfl
    | succ k ih =>
      intro hk
      simp [sampleLoop, ih (by omega), hall k (by omega)]
  unfold sandboxScore
  rw [hsl SAMPLES le_rfl]
  simp

/-- Witness for C10 at the concrete contract-conforming response. -/
theorem conforming_response_scores_zero_witness :
    contractConforming conformingResp = true
      ∧ trialCorrect ⟨true, InvokeOutcome.returns conformingResp⟩ = false
      ∧ sandboxScore trialsConforming = 0 := by
  refine ⟨by decide, ?_, ?_⟩
  · exact conforming_response_scores_zero.1 true conformingResp (by decide)
  · exact conforming_response_scores_zero.2 trialsConforming
      (fun i _ v hv => InvokeOutcome.returns.inj hv ▸ (by decide : contractConforming conformingResp = true))
